import Mathlib

/-!
Verification of the guess-number HTTP API (`src/main.py`).

The Python module is shallowly embedded: Python `int` values become `Int`
(win/loss counters become `Nat`, since the data model constrains them to
non-negative integers and every reachable value is non-negative), Python
dicts become association lists that preserve insertion order (matching
CPython dict iteration order, which `save_stats` relies on), raised
`HTTPException`/`ValueError` become `Except` results carrying the server
state at the raise point, and the two sources of nondeterminism in
`create_game` (`random.randint` and `uuid.uuid4().hex`) are injected as
parameters.  The `scores.txt` file is a `List Char` field of the server
state; text-mode reading is modelled on a POSIX platform (writes are the
identity, reads apply universal-newline translation).
-/

namespace GuessNumber

/-- `stats` entry: `{"wins": int, "losses": int}` (non-negative per the data
model, hence `Nat`). -/
structure PlayerStats where
  wins : Nat
  losses : Nat
deriving Repr, DecidableEq

/-- A game dict as built by `create_game`. -/
structure Game where
  secret_number : Int
  number_range : Int
  max_attempts : Int
  attempts_used : Int
  is_over : Bool
  player_name : String
deriving Repr, DecidableEq

/-- The `stats` dict: player name -> record, in insertion order. -/
abbrev Stats := List (String × PlayerStats)

/-- The `games` dict: game id -> game, in insertion order. -/
abbrev Games := List (String × Game)

/-- Response model of `POST /check-guess`. -/
structure GuessResponse where
  result : String
  attempts_left : Int
  correct_number : Option Int
deriving Repr, DecidableEq

/-- Response model of `POST /start-game`. -/
structure StartGameResponse where
  game_id : String
  number_range : Int
  max_attempts : Int
deriving Repr, DecidableEq

/-- The error kinds the endpoints raise (`ValueError` for difficulty,
`HTTPException` otherwise); `invalidGuess` carries the `number_range`
quoted in the 400 detail string. -/
inductive GameError where
  | invalidDifficulty : GameError
  | gameNotFound : GameError
  | invalidGuess : Int → GameError
  | playerNotFound : GameError
deriving Repr, DecidableEq

/-- Process-wide state: the `games` and `stats` globals plus the current
contents of `scores.txt`. -/
structure ServerState where
  games : Games
  stats : Stats
  file : List Char
deriving Repr, DecidableEq

/-- Dict lookup (`d[k]` / `k in d`). -/
def dictGet {α : Type} : List (String × α) → String → Option α
  | [], _ => none
  | (k', v) :: rest, k => if k' = k then some v else dictGet rest k

/-- Dict assignment `d[k] = v`: overwrite in place if the key exists
(keeping its position), otherwise append, as CPython dicts do. -/
def dictSet {α : Type} : List (String × α) → String → α → List (String × α)
  | [], k, v => [(k, v)]
  | (k', v') :: rest, k, v =>
    if k' = k then (k, v) :: rest else (k', v') :: dictSet rest k v

/- ---------- decimal rendering and parsing (for `"%d"` and `int`) ---------- -/

/-- One decimal digit as a character. -/
def digitChar : Nat → Char
  | 0 => '0' | 1 => '1' | 2 => '2' | 3 => '3' | 4 => '4'
  | 5 => '5' | 6 => '6' | 7 => '7' | 8 => '8' | _ => '9'

/-- Fuel-driven core of decimal rendering (fuel keeps it structural). -/
def natCharsAux : Nat → Nat → List Char → List Char
  | 0, _, acc => acc
  | fuel + 1, n, acc =>
    if n < 10 then digitChar n :: acc
    else natCharsAux fuel (n / 10) (digitChar (n % 10) :: acc)

/-- Decimal rendering of a natural number, as `"%d" % n` produces. -/
def natChars (n : Nat) : List Char := natCharsAux (n + 1) n []

/-- Is `c` one of the ten ASCII digits? -/
def isDigitCh (c : Char) : Bool := 48 ≤ c.toNat && c.toNat ≤ 57

/-- `int(s)` on the digit strings `save_stats` emits: all characters must
be digits and there must be at least one.  (CPython `int` additionally
accepts surrounding whitespace and a sign, which never occur in the
ledger file the program itself writes.) -/
def parseNat (cs : List Char) : Option Nat :=
  if cs = [] then none
  else if cs.all isDigitCh then
    some (cs.foldl (fun acc c => acc * 10 + (c.toNat - 48)) 0)
  else none

/- ---------- text-file plumbing for scores.txt ---------- -/

/-- Whitespace in the sense of CPython `str.isspace()`, which is exactly
what `str.strip()` with no argument removes: U+0009..U+000D, the ASCII
separators U+001C..U+001F, space, U+0085 (next line), U+00A0 (no-break
space), U+1680 (Ogham space mark), U+2000..U+200A (the en-quad..hair-space
range), U+2028/U+2029 (line/paragraph separator), U+202F, U+205F and
U+3000 (ideographic space). -/
def isWsCh (c : Char) : Bool :=
  (9 ≤ c.toNat && c.toNat ≤ 13) || (28 ≤ c.toNat && c.toNat ≤ 32) ||
  c.toNat = 133 || c.toNat = 160 || c.toNat = 5760 ||
  (8192 ≤ c.toNat && c.toNat ≤ 8202) || c.toNat = 8232 || c.toNat = 8233 ||
  c.toNat = 8239 || c.toNat = 8287 || c.toNat = 12288

/-- `line.strip()`. -/
def stripChars (l : List Char) : List Char :=
  ((l.dropWhile isWsCh).reverse.dropWhile isWsCh).reverse

/-- Split a character list at every occurrence of `c` (the separators are
dropped; `n + 1` separators give `n + 2` pieces). -/
def splitOnCh (c : Char) : List Char → List (List Char)
  | [] => [[]]
  | x :: xs =>
    if x = c then [] :: splitOnCh c xs
    else
      match splitOnCh c xs with
      | [] => [[x]]
      | piece :: rest => (x :: piece) :: rest

/-- Universal-newline translation performed by reading a file in text
mode: each of `\r\n`, `\r`, `\n` becomes `\n`. -/
def univNewlines : List Char → List Char
  | [] => []
  | [c] => if c = '\r' then ['\n'] else [c]
  | c1 :: c2 :: rest =>
    if c1 = '\r' then
      if c2 = '\n' then '\n' :: univNewlines rest
      else '\n' :: univNewlines (c2 :: rest)
    else c1 :: univNewlines (c2 :: rest)

/- ---------- Stats helpers (load/save/update) ---------- -/

/-- One saved ledger line, `"%s;%d;%d\n" % (name, wins, losses)`. -/
def statsLine (entry : String × PlayerStats) : List Char :=
  entry.1.data ++ ';' :: (natChars entry.2.wins ++ ';' :: (natChars entry.2.losses ++ ['\n']))

/-- `save_stats`: overwrite `scores.txt` with one line per player, in dict
order. -/
def save_stats (stats : Stats) : List Char :=
  (stats.map statsLine).flatten

/-- `name, wins_str, losses_str = line.split(";")` followed by the two
`int` conversions; `none` models the uncaught `ValueError` on a malformed
line. -/
def parseStatsLine (line : List Char) : Option (String × PlayerStats) :=
  match splitOnCh ';' line with
  | [name, wins_str, losses_str] =>
    match parseNat wins_str, parseNat losses_str with
    | some wins, some losses => some (String.mk name, ⟨wins, losses⟩)
    | _, _ => none
  | _ => none

/-- The `for line in f` loop body of `load_stats`, over already-split
lines. -/
def loadLines (data : Stats) : List (List Char) → Option Stats
  | [] => some data
  | raw :: rest =>
    let line := stripChars raw
    if line = [] then loadLines data rest
    else
      match parseStatsLine line with
      | none => none
      | some (name, record) => loadLines (dictSet data name record) rest

/-- `load_stats`: `none` input models a missing file (first run → empty
ledger); a `none` result models the uncaught `ValueError` on a malformed
line. -/
def load_stats (file : Option (List Char)) : Option Stats :=
  match file with
  | none => some []
  | some content => loadLines [] (splitOnCh '\n' (univNewlines content))

/-- `ensure_player_stats`. -/
def ensure_player_stats (stats : Stats) (player_name : String) : Stats :=
  if (dictGet stats player_name).isSome then stats
  else dictSet stats player_name ⟨0, 0⟩

/-- `stats[player_name]["wins"] += 1`: bump the entry under key `p` in
place (the key is present whenever the program runs this line, since
`ensure_player_stats` precedes it). -/
def addWin : Stats → String → Stats
  | [], _ => []
  | (k, r) :: rest, p =>
    if k = p then (k, ⟨r.wins + 1, r.losses⟩) :: rest
    else (k, r) :: addWin rest p

/-- `stats[player_name]["losses"] += 1`. -/
def addLoss : Stats → String → Stats
  | [], _ => []
  | (k, r) :: rest, p =>
    if k = p then (k, ⟨r.wins, r.losses + 1⟩) :: rest
    else (k, r) :: addLoss rest p

/-- `record_result`: ensure the record exists, bump the matching counter,
then `save_stats()` (which always runs, whatever `result` is). -/
def record_result (st : ServerState) (player_name : String) (result : String) :
    ServerState :=
  let stats1 := ensure_player_stats st.stats player_name
  let stats2 :=
    if result = "win" then addWin stats1 player_name
    else if result = "lose" then addLoss stats1 player_name
    else stats1
  { st with stats := stats2, file := save_stats stats2 }

/- ---------- Core game logic ---------- -/

/-- `check_guess`. -/
def check_guess (secret_number : Int) (guess : Int) : String :=
  if guess > secret_number then "too_high"
  else if guess < secret_number then "too_low"
  else "correct"

/-- `choose_difficulty_from_number` (the `ValueError` surfaces as
`invalidDifficulty`). -/
def choose_difficulty_from_number (difficulty : Int) :
    Except GameError (Int × Int) :=
  if difficulty = 1 then .ok (10, 5)
  else if difficulty = 2 then .ok (20, 4)
  else if difficulty = 3 then .ok (50, 3)
  else .error .invalidDifficulty

/-- `create_game`, with the random secret and the fresh uuid hex injected
as parameters.  Errors carry the state at the raise point (nothing has
mutated when the difficulty is rejected). -/
def create_game (st : ServerState) (difficulty : Int) (player_name : String)
    (secret_number : Int) (game_id : String) :
    Except (GameError × ServerState) (StartGameResponse × ServerState) :=
  match choose_difficulty_from_number difficulty with
  | .error e => .error (e, st)
  | .ok (number_range, max_attempts) =>
    let stats1 := ensure_player_stats st.stats player_name
    let game : Game :=
      { secret_number := secret_number
        number_range := number_range
        max_attempts := max_attempts
        attempts_used := 0
        is_over := false
        player_name := player_name }
    .ok ({ game_id := game_id, number_range := number_range, max_attempts := max_attempts },
         { st with stats := stats1, games := dictSet st.games game_id game })

/-- `apply_guess_to_game`.  The Python function mutates the game dict it
was handed, which is the registry's own entry; here the updated game is
written back to the registry under its id `gid`. -/
def apply_guess_to_game (st : ServerState) (gid : String) (game : Game)
    (guess : Int) :
    Except (GameError × ServerState) (GuessResponse × ServerState) :=
  if game.is_over then
    .ok ({ result := "game_over"
           attempts_left := game.max_attempts - game.attempts_used
           correct_number := some game.secret_number }, st)
  else if guess < 1 ∨ guess > game.number_range then
    .error (.invalidGuess game.number_range, st)
  else
    let game1 : Game := { game with attempts_used := game.attempts_used + 1 }
    let basic_result := check_guess game1.secret_number guess
    let attempts_left := game1.max_attempts - game1.attempts_used
    if basic_result = "correct" then
      let game2 : Game := { game1 with is_over := true }
      let st1 : ServerState := { st with games := dictSet st.games gid game2 }
      let st2 := record_result st1 game2.player_name "win"
      .ok ({ result := "win"
             attempts_left := attempts_left
             correct_number := some game2.secret_number }, st2)
    else if attempts_left ≤ 0 then
      let game2 : Game := { game1 with is_over := true }
      let st1 : ServerState := { st with games := dictSet st.games gid game2 }
      let st2 := record_result st1 game2.player_name "lose"
      .ok ({ result := "lose"
             attempts_left := 0
             correct_number := some game2.secret_number }, st2)
    else
      .ok ({ result := basic_result
             attempts_left := attempts_left
             correct_number := none },
           { st with games := dictSet st.games gid game1 })

/-- `get_game_or_404` composed with `apply_guess_to_game`: the
`POST /check-guess` endpoint. -/
def check_guess_endpoint (st : ServerState) (game_id : String) (guess : Int) :
    Except (GameError × ServerState) (GuessResponse × ServerState) :=
  match dictGet st.games game_id with
  | none => .error (.gameNotFound, st)
  | some game => apply_guess_to_game st game_id game guess

/-- `get_player_stats_data` (read-only; the 404 carries no mutation). -/
def get_player_stats_data (stats : Stats) (player_name : String) :
    Except GameError (String × Nat × Nat) :=
  match dictGet stats player_name with
  | none => .error .playerNotFound
  | some record => .ok (player_name, record.wins, record.losses)

/-- Wins of a player as the client would observe them: the record's count
when present, else 0. -/
def getWins (stats : Stats) (p : String) : Nat :=
  match dictGet stats p with
  | some record => record.wins
  | none => 0

/-- Losses of a player as the client would observe them. -/
def getLosses (stats : Stats) (p : String) : Nat :=
  match dictGet stats p with
  | some record => record.losses
  | none => 0

/-- A saved line without its trailing newline. -/
def lineBody (entry : String × PlayerStats) : List Char :=
  entry.1.data ++ ';' :: (natChars entry.2.wins ++ ';' :: natChars entry.2.losses)

/-- Names the flat `name;wins;losses` format can carry faithfully: no
separator, no line break, and nothing `strip()` would eat at either
end. -/
def goodName (n : String) : Bool :=
  (n.data.all fun c => !(c = ';') && !(c = '\n') && !(c = '\r')) &&
  (match n.data.head? with | some c => !isWsCh c | none => true) &&
  (match n.data.getLast? with | some c => !isWsCh c | none => true)

/-- Run a list of guesses through `POST /check-guess` in order, returning
the last response (if any) and the final state; stops at the first
error. -/
def runGuesses (st : ServerState) (gid : String) :
    List Int → Except (GameError × ServerState) (Option GuessResponse × ServerState)
  | [] => .ok (none, st)
  | g :: gs =>
    match check_guess_endpoint st gid g with
    | .error e => .error e
    | .ok (resp, st1) =>
      match runGuesses st1 gid gs with
      | .error e => .error e
      | .ok (rest, st2) => .ok (some (rest.getD resp), st2)

/-- Did the request raise (any) `HTTPException`/`ValueError`? -/
def isClientError {α : Type} : Except (GameError × ServerState) α → Bool
  | .error _ => true
  | .ok _ => false

/-- A fresh difficulty-1 game with secret 7 owned by "bob". -/
def sampleGame : Game :=
  { secret_number := 7, number_range := 10, max_attempts := 5
    attempts_used := 0, is_over := false, player_name := "bob" }

/-- The same game after ending with 3 attempts used. -/
def sampleOverGame : Game := { sampleGame with attempts_used := 3, is_over := true }

/-- Registry holding the fresh sample game under id "g". -/
def sampleState : ServerState := { games := [("g", sampleGame)], stats := [], file := [] }

/-- Registry holding the finished sample game under id "g". -/
def sampleOverState : ServerState :=
  { games := [("g", sampleOverGame)], stats := [], file := [] }

/-- A server with no games and no stats. -/
def emptyState : ServerState := { games := [], stats := [], file := [] }

/- ==================== lemmas about the dict operations ==================== -/

theorem dictGet_dictSet_self {α : Type} (l : List (String × α)) (k : String) (v : α) :
    dictGet (dictSet l k v) k = some v := by
  induction l with
  | nil => simp [dictGet, dictSet]
  | cons e rest ih =>
    obtain ⟨a, b⟩ := e
    by_cases h : a = k
    · simp [dictGet, dictSet, h]
    · simp [dictGet, dictSet, h, ih]

theorem dictGet_dictSet_ne {α : Type} (l : List (String × α)) (k k' : String) (v : α)
    (h : k' ≠ k) : dictGet (dictSet l k v) k' = dictGet l k' := by
  have h2 : ¬ k = k' := fun he => h he.symm
  induction l with
  | nil => simp [dictGet, dictSet, h2]
  | cons e rest ih =>
    obtain ⟨a, b⟩ := e
    by_cases he : a = k
    · subst he
      simp [dictGet, dictSet, h2]
    · simp [dictGet, dictSet, he, ih]

theorem dictSet_of_none {α : Type} (l : List (String × α)) (k : String) (v : α)
    (h : dictGet l k = none) : dictSet l k v = l ++ [(k, v)] := by
  induction l with
  | nil => simp [dictSet]
  | cons e rest ih =>
    obtain ⟨a, b⟩ := e
    by_cases he : a = k
    · simp [dictGet, he] at h
    · simp only [dictGet, he, if_false] at h
      simp [dictSet, he, ih h]

theorem dictGet_append_singleton {α : Type} (l : List (String × α)) (k n : String) (v : α) :
    dictGet (l ++ [(k, v)]) n =
      match dictGet l n with
      | some r => some r
      | none => if k = n then some v else none := by
  induction l with
  | nil => simp [dictGet]
  | cons e rest ih =>
    obtain ⟨a, b⟩ := e
    by_cases he : a = n
    · simp [dictGet, he]
    · simp [dictGet, he, ih]

/- ==================== lemmas about the stats helpers ==================== -/

theorem dictGet_ensure_self (s : Stats) (p : String) :
    dictGet (ensure_player_stats s p) p = some ((dictGet s p).getD ⟨0, 0⟩) := by
  unfold ensure_player_stats
  cases h : dictGet s p with
  | some r => simp [h]
  | none => simp [h, dictGet_dictSet_self]

theorem dictGet_ensure_ne (s : Stats) (p q : String) (h : q ≠ p) :
    dictGet (ensure_player_stats s p) q = dictGet s q := by
  unfold ensure_player_stats
  cases hp : dictGet s p with
  | some r => simp [hp]
  | none => simp [hp, dictGet_dictSet_ne s p q _ h]

theorem dictGet_addWin_self (s : Stats) (p : String) :
    dictGet (addWin s p) p = (dictGet s p).map fun r => ⟨r.wins + 1, r.losses⟩ := by
  induction s with
  | nil => simp [dictGet, addWin]
  | cons e rest ih =>
    obtain ⟨a, b⟩ := e
    by_cases he : a = p
    · subst he
      simp [addWin, dictGet]
    · simp [addWin, dictGet, he, ih]

theorem dictGet_addWin_ne (s : Stats) (p q : String) (h : q ≠ p) :
    dictGet (addWin s p) q = dictGet s q := by
  induction s with
  | nil => simp [dictGet, addWin]
  | cons e rest ih =>
    obtain ⟨a, b⟩ := e
    by_cases he : a = p
    · subst he
      have haq : ¬ a = q := fun h' => h h'.symm
      simp [addWin, dictGet, haq]
    · by_cases hq : a = q
      · simp [addWin, dictGet, he, hq, h]
      · simp [addWin, dictGet, he, hq, ih]

theorem dictGet_addLoss_self (s : Stats) (p : String) :
    dictGet (addLoss s p) p = (dictGet s p).map fun r => ⟨r.wins, r.losses + 1⟩ := by
  induction s with
  | nil => simp [dictGet, addLoss]
  | cons e rest ih =>
    obtain ⟨a, b⟩ := e
    by_cases he : a = p
    · subst he
      simp [addLoss, dictGet]
    · simp [addLoss, dictGet, he, ih]

theorem dictGet_addLoss_ne (s : Stats) (p q : String) (h : q ≠ p) :
    dictGet (addLoss s p) q = dictGet s q := by
  induction s with
  | nil => simp [dictGet, addLoss]
  | cons e rest ih =>
    obtain ⟨a, b⟩ := e
    by_cases he : a = p
    · subst he
      have haq : ¬ a = q := fun h' => h h'.symm
      simp [addLoss, dictGet, haq]
    · by_cases hq : a = q
      · simp [addLoss, dictGet, he, hq, h]
      · simp [addLoss, dictGet, he, hq, ih]

theorem getWins_ensure (s : Stats) (p q : String) :
    getWins (ensure_player_stats s p) q = getWins s q := by
  by_cases h : q = p
  · subst h
    unfold getWins
    rw [dictGet_ensure_self]
    cases dictGet s q <;> simp
  · unfold getWins
    rw [dictGet_ensure_ne s p q h]

theorem getLosses_ensure (s : Stats) (p q : String) :
    getLosses (ensure_player_stats s p) q = getLosses s q := by
  by_cases h : q = p
  · subst h
    unfold getLosses
    rw [dictGet_ensure_self]
    cases dictGet s q <;> simp
  · unfold getLosses
    rw [dictGet_ensure_ne s p q h]

theorem record_result_games (st : ServerState) (p r : String) :
    (record_result st p r).games = st.games := rfl

theorem record_result_win_stats (st : ServerState) (p : String) :
    (record_result st p "win").stats = addWin (ensure_player_stats st.stats p) p := by
  simp [record_result]

theorem record_result_lose_stats (st : ServerState) (p : String) :
    (record_result st p "lose").stats = addLoss (ensure_player_stats st.stats p) p := by
  simp [record_result]

theorem record_result_file (st : ServerState) (p r : String) :
    (record_result st p r).file = save_stats (record_result st p r).stats := rfl

theorem getWins_record_win (st : ServerState) (p : String) :
    getWins (record_result st p "win").stats p = getWins st.stats p + 1 := by
  rw [record_result_win_stats]
  unfold getWins
  rw [dictGet_addWin_self, dictGet_ensure_self]
  cases dictGet st.stats p <;> simp

theorem getLosses_record_win (st : ServerState) (p : String) :
    getLosses (record_result st p "win").stats p = getLosses st.stats p := by
  rw [record_result_win_stats]
  unfold getLosses
  rw [dictGet_addWin_self, dictGet_ensure_self]
  cases dictGet st.stats p <;> simp

theorem getWins_record_lose (st : ServerState) (p : String) :
    getWins (record_result st p "lose").stats p = getWins st.stats p := by
  rw [record_result_lose_stats]
  unfold getWins
  rw [dictGet_addLoss_self, dictGet_ensure_self]
  cases dictGet st.stats p <;> simp

theorem getLosses_record_lose (st : ServerState) (p : String) :
    getLosses (record_result st p "lose").stats p = getLosses st.stats p + 1 := by
  rw [record_result_lose_stats]
  unfold getLosses
  rw [dictGet_addLoss_self, dictGet_ensure_self]
  cases dictGet st.stats p <;> simp

/- ==================== decimal round-trip lemmas ==================== -/

theorem digitChar_isDigit (d : Nat) : isDigitCh (digitChar d) = true := by
  rcases d with _ | _ | _ | _ | _ | _ | _ | _ | _ | d
  · decide
  · decide
  · decide
  · decide
  · decide
  · decide
  · decide
  · decide
  · decide
  · exact (by decide : isDigitCh ('9' : Char) = true)

theorem digitChar_val (d : Nat) (h : d < 10) : (digitChar d).toNat - 48 = d := by
  interval_cases d <;> decide

theorem isDigit_bounds (c : Char) (h : isDigitCh c = true) :
    48 ≤ c.toNat ∧ c.toNat ≤ 57 := by
  simpa [isDigitCh, Bool.and_eq_true, decide_eq_true_eq] using h

theorem isDigit_not_ws (c : Char) (h : isDigitCh c = true) : isWsCh c = false := by
  obtain ⟨h1, h2⟩ := isDigit_bounds c h
  simp only [isWsCh, Bool.or_eq_false_iff, Bool.and_eq_false_iff, decide_eq_false_iff_not]
  omega

theorem isDigit_ne_semi (c : Char) (h : isDigitCh c = true) : c ≠ ';' := by
  intro hc
  subst hc
  exact absurd h (by decide)

theorem isDigit_ne_nl (c : Char) (h : isDigitCh c = true) : c ≠ '\n' := by
  intro hc
  subst hc
  exact absurd h (by decide)

theorem isDigit_ne_cr (c : Char) (h : isDigitCh c = true) : c ≠ '\r' := by
  intro hc
  subst hc
  exact absurd h (by decide)

theorem natCharsAux_acc (fuel : Nat) :
    ∀ (n : Nat) (acc : List Char),
      natCharsAux fuel n acc = natCharsAux fuel n [] ++ acc := by
  induction fuel with
  | zero => intro n acc; simp [natCharsAux]
  | succ fuel ih =>
    intro n acc
    by_cases hn : n < 10
    · simp [natCharsAux, hn]
    · simp only [natCharsAux, hn, if_false]
      rw [ih (n / 10) (digitChar (n % 10) :: acc), ih (n / 10) [digitChar (n % 10)]]
      simp

theorem natCharsAux_digits (fuel : Nat) :
    ∀ (n : Nat) (c : Char), c ∈ natCharsAux fuel n [] → isDigitCh c = true := by
  induction fuel with
  | zero => intro n c hc; simp [natCharsAux] at hc
  | succ fuel ih =>
    intro n c hc
    by_cases hn : n < 10
    · simp only [natCharsAux, hn, if_true, List.mem_singleton] at hc
      subst hc
      exact digitChar_isDigit n
    · simp only [natCharsAux, hn, if_false] at hc
      rw [natCharsAux_acc fuel (n / 10) [digitChar (n % 10)]] at hc
      rcases List.mem_append.mp hc with h | h
      · exact ih (n / 10) c h
      · rw [List.mem_singleton.mp h]
        exact digitChar_isDigit (n % 10)

theorem natCharsAux_ne_nil (fuel : Nat) (n : Nat) (h : 0 < fuel) :
    natCharsAux fuel n [] ≠ [] := by
  cases fuel with
  | zero => omega
  | succ fuel =>
    by_cases hn : n < 10
    · simp [natCharsAux, hn]
    · simp only [natCharsAux, hn, if_false]
      rw [natCharsAux_acc fuel (n / 10) [digitChar (n % 10)]]
      simp

theorem natCharsAux_val (fuel : Nat) :
    ∀ (n : Nat), n < fuel →
      (natCharsAux fuel n []).foldl (fun acc c => acc * 10 + (c.toNat - 48)) 0 = n := by
  induction fuel with
  | zero => intro n h; omega
  | succ fuel ih =>
    intro n h
    by_cases hn : n < 10
    · simp only [natCharsAux, hn, if_true, List.foldl_cons, List.foldl_nil]
      rw [digitChar_val n hn]
      omega
    · simp only [natCharsAux, hn, if_false]
      rw [natCharsAux_acc fuel (n / 10) [digitChar (n % 10)], List.foldl_append]
      have hdiv : n / 10 < fuel := by
        have h1 : n / 10 < n := Nat.div_lt_self (by omega) (by omega)
        omega
      rw [ih (n / 10) hdiv]
      simp only [List.foldl_cons, List.foldl_nil]
      rw [digitChar_val (n % 10) (Nat.mod_lt n (by omega))]
      omega

theorem natChars_digits (n : Nat) (c : Char) (hc : c ∈ natChars n) : isDigitCh c = true :=
  natCharsAux_digits (n + 1) n c hc

theorem natChars_ne_nil (n : Nat) : natChars n ≠ [] :=
  natCharsAux_ne_nil (n + 1) n (by omega)

theorem parseNat_natChars (n : Nat) : parseNat (natChars n) = some n := by
  unfold parseNat natChars
  rw [if_neg (natCharsAux_ne_nil (n + 1) n (by omega)), if_pos]
  · rw [natCharsAux_val (n + 1) n (by omega)]
  · rw [List.all_eq_true]
    intro c hc
    exact natCharsAux_digits (n + 1) n c hc

/- ==================== text plumbing lemmas ==================== -/

theorem splitOnCh_not_mem (c : Char) (l : List Char) (h : c ∉ l) :
    splitOnCh c l = [l] := by
  induction l with
  | nil => rfl
  | cons x xs ih =>
    have hx : ¬ x = c := fun he => h (he ▸ List.mem_cons_self x xs)
    have hxs : c ∉ xs := fun hm => h (List.mem_cons_of_mem x hm)
    simp only [splitOnCh, hx, if_false, ih hxs]

theorem splitOnCh_append (c : Char) (l1 l2 : List Char) (h : c ∉ l1) :
    splitOnCh c (l1 ++ c :: l2) = l1 :: splitOnCh c l2 := by
  induction l1 with
  | nil => simp [splitOnCh]
  | cons x xs ih =>
    have hx : ¬ x = c := fun he => h (he ▸ List.mem_cons_self x xs)
    have hxs : c ∉ xs := fun hm => h (List.mem_cons_of_mem x hm)
    simp only [List.cons_append, splitOnCh, hx, if_false, List.append_eq, ih hxs]

theorem dropWhile_eq_self_of_head (p : Char → Bool) (l : List Char)
    (h : ∀ x, l.head? = some x → p x = false) : l.dropWhile p = l := by
  cases l with
  | nil => rfl
  | cons a as =>
    rw [List.dropWhile_cons, if_neg]
    simp [h a rfl]

theorem stripChars_eq_self (l : List Char)
    (h1 : ∀ x, l.head? = some x → isWsCh x = false)
    (h2 : ∀ x, l.getLast? = some x → isWsCh x = false) : stripChars l = l := by
  unfold stripChars
  rw [dropWhile_eq_self_of_head isWsCh l h1]
  rw [dropWhile_eq_self_of_head isWsCh l.reverse (by rw [List.head?_reverse]; exact h2)]
  exact List.reverse_reverse l

theorem univNewlines_id (l : List Char) (h : '\r' ∉ l) : univNewlines l = l := by
  induction l with
  | nil => rfl
  | cons a as ih =>
    have ha : ¬ a = '\r' := fun he => h (he ▸ List.mem_cons_self a as)
    have has : '\r' ∉ as := fun hm => h (List.mem_cons_of_mem a hm)
    cases as with
    | nil => simp [univNewlines, ha]
    | cons b bs =>
      rw [univNewlines, if_neg ha]
      rw [ih has]

/-- Unpack `goodName` into its usable parts. -/
theorem goodName_spec (nm : String) (h : goodName nm = true) :
    (∀ c ∈ nm.data, c ≠ ';' ∧ c ≠ '\n' ∧ c ≠ '\r') ∧
    (∀ c, nm.data.head? = some c → isWsCh c = false) ∧
    (∀ c, nm.data.getLast? = some c → isWsCh c = false) := by
  simp only [goodName, Bool.and_eq_true, List.all_eq_true] at h
  obtain ⟨⟨hmem, hhead⟩, hlast⟩ := h
  refine ⟨?_, ?_, ?_⟩
  · intro c hc
    have := hmem c hc
    simp only [Bool.and_eq_true, Bool.not_eq_true', decide_eq_false_iff_not] at this
    exact ⟨this.1.1, this.1.2, this.2⟩
  · intro c hc
    rw [hc] at hhead
    simpa using hhead
  · intro c hc
    rw [hc] at hlast
    simpa using hlast

/- ==================== ledger line lemmas ==================== -/

theorem getLast?_mem_self (l : List Char) (x : Char) (h : l.getLast? = some x) : x ∈ l := by
  have h2 : l.reverse.head? = some x := by rw [List.head?_reverse]; exact h
  cases hrev : l.reverse with
  | nil => rw [hrev] at h2; cases h2
  | cons a as =>
    rw [hrev, List.head?_cons, Option.some.injEq] at h2
    rw [← List.mem_reverse, hrev, h2]
    exact List.mem_cons_self _ _

theorem statsLine_eq (e : String × PlayerStats) :
    statsLine e = lineBody e ++ ['\n'] := by
  simp [statsLine, lineBody, List.append_assoc, List.cons_append]

theorem lineBody_no_nl (e : String × PlayerStats) (h : goodName e.1 = true) :
    '\n' ∉ lineBody e := by
  obtain ⟨hmem, -, -⟩ := goodName_spec e.1 h
  intro hc
  unfold lineBody at hc
  rcases List.mem_append.mp hc with h1 | h1
  · exact (hmem _ h1).2.1 rfl
  · rcases List.mem_cons.mp h1 with h2 | h2
    · exact absurd h2 (by decide)
    · rcases List.mem_append.mp h2 with h3 | h3
      · exact isDigit_ne_nl _ (natChars_digits _ _ h3) rfl
      · rcases List.mem_cons.mp h3 with h4 | h4
        · exact absurd h4 (by decide)
        · exact isDigit_ne_nl _ (natChars_digits _ _ h4) rfl

theorem lineBody_no_cr (e : String × PlayerStats) (h : goodName e.1 = true) :
    '\r' ∉ lineBody e := by
  obtain ⟨hmem, -, -⟩ := goodName_spec e.1 h
  intro hc
  unfold lineBody at hc
  rcases List.mem_append.mp hc with h1 | h1
  · exact (hmem _ h1).2.2 rfl
  · rcases List.mem_cons.mp h1 with h2 | h2
    · exact absurd h2 (by decide)
    · rcases List.mem_append.mp h2 with h3 | h3
      · exact isDigit_ne_cr _ (natChars_digits _ _ h3) rfl
      · rcases List.mem_cons.mp h3 with h4 | h4
        · exact absurd h4 (by decide)
        · exact isDigit_ne_cr _ (natChars_digits _ _ h4) rfl

theorem lineBody_ne_nil (e : String × PlayerStats) : lineBody e ≠ [] := by
  unfold lineBody
  cases e.1.data <;> simp

theorem stripChars_lineBody (e : String × PlayerStats) (h : goodName e.1 = true) :
    stripChars (lineBody e) = lineBody e := by
  obtain ⟨-, hhead, hlast⟩ := goodName_spec e.1 h
  refine stripChars_eq_self (lineBody e) ?_ ?_
  · intro x hx
    unfold lineBody at hx
    cases hd : e.1.data with
    | nil =>
      rw [hd, List.nil_append, List.head?_cons, Option.some.injEq] at hx
      rw [← hx]
      decide
    | cons a as =>
      rw [hd, List.cons_append, List.head?_cons, Option.some.injEq] at hx
      rw [← hx]
      exact hhead a (by rw [hd]; rfl)
  · intro x hx
    unfold lineBody at hx
    have hsplit : e.1.data ++ ';' :: (natChars e.2.wins ++ ';' :: natChars e.2.losses) =
        (e.1.data ++ ';' :: (natChars e.2.wins ++ [';'])) ++ natChars e.2.losses := by
      simp [List.append_assoc, List.cons_append]
    rw [hsplit, List.getLast?_append_of_ne_nil _ (natChars_ne_nil e.2.losses)] at hx
    exact isDigit_not_ws x (natChars_digits _ _ (getLast?_mem_self _ _ hx))

theorem string_mk_data (str : String) : String.mk str.data = str := rfl

theorem parseStatsLine_lineBody (e : String × PlayerStats) (h : goodName e.1 = true) :
    parseStatsLine (lineBody e) = some e := by
  obtain ⟨hmem, -, -⟩ := goodName_spec e.1 h
  have hsemi_name : ';' ∉ e.1.data := fun hc => (hmem _ hc).1 rfl
  have hsemi_w : ';' ∉ natChars e.2.wins :=
    fun hc => isDigit_ne_semi _ (natChars_digits _ _ hc) rfl
  have hsemi_l : ';' ∉ natChars e.2.losses :=
    fun hc => isDigit_ne_semi _ (natChars_digits _ _ hc) rfl
  unfold parseStatsLine lineBody
  rw [splitOnCh_append ';' e.1.data _ hsemi_name,
    splitOnCh_append ';' (natChars e.2.wins) _ hsemi_w,
    splitOnCh_not_mem ';' (natChars e.2.losses) hsemi_l]
  simp [parseNat_natChars]

/- ==================== whole-file save/load lemmas ==================== -/

theorem save_stats_cons (e : String × PlayerStats) (L : Stats) :
    save_stats (e :: L) = lineBody e ++ '\n' :: save_stats L := by
  simp [save_stats, statsLine_eq, List.append_assoc]

theorem save_no_cr (L : Stats) (h : ∀ e ∈ L, goodName e.1 = true) :
    '\r' ∉ save_stats L := by
  induction L with
  | nil => simp [save_stats]
  | cons e rest ih =>
    intro hc
    rw [save_stats_cons] at hc
    rcases List.mem_append.mp hc with h1 | h1
    · exact lineBody_no_cr e (h e (List.mem_cons_self e rest)) h1
    · rcases List.mem_cons.mp h1 with h2 | h2
      · exact absurd h2 (by decide)
      · exact ih (fun e' he' => h e' (List.mem_cons_of_mem e he')) h2

theorem save_split (L : Stats) (h : ∀ e ∈ L, goodName e.1 = true) :
    splitOnCh '\n' (save_stats L) = L.map lineBody ++ [[]] := by
  induction L with
  | nil => rfl
  | cons e rest ih =>
    have hnl : '\n' ∉ lineBody e := lineBody_no_nl e (h e (List.mem_cons_self e rest))
    rw [save_stats_cons, splitOnCh_append '\n' (lineBody e) _ hnl,
      ih (fun e' he' => h e' (List.mem_cons_of_mem e he'))]
    simp

theorem loadLines_append (L : Stats) :
    ∀ (acc : Stats),
      (∀ e ∈ L, goodName e.1 = true) →
      (L.map Prod.fst).Nodup →
      (∀ e ∈ L, dictGet acc e.1 = none) →
      loadLines acc (L.map lineBody ++ [[]]) = some (acc ++ L) := by
  induction L with
  | nil =>
    intro acc _ _ _
    simp [loadLines, stripChars]
  | cons e rest ih =>
    intro acc hgood hnodup hdisj
    have hge := hgood e (List.mem_cons_self e rest)
    rw [List.map_cons] at hnodup
    obtain ⟨hnotin, hnodup2⟩ := List.nodup_cons.mp hnodup
    rw [List.map_cons, List.cons_append]
    simp only [loadLines, stripChars_lineBody e hge, lineBody_ne_nil e, if_false,
      parseStatsLine_lineBody e hge]
    have hset : dictSet acc e.1 e.2 = acc ++ [e] :=
      dictSet_of_none acc e.1 e.2 (hdisj e (List.mem_cons_self e rest))
    rw [hset, ih (acc ++ [e])
      (fun e' he' => hgood e' (List.mem_cons_of_mem e he'))
      hnodup2 ?_]
    · simp
    · intro e' he'
      rw [dictGet_append_singleton]
      have hne : e.1 ≠ e'.1 := by
        intro hcontr
        exact hnotin (hcontr ▸ List.mem_map_of_mem Prod.fst he')
      rw [hdisj e' (List.mem_cons_of_mem e he')]
      simp [hne]

/- ==================== branch characterizations of apply_guess_to_game ==================== -/

theorem check_guess_correct_iff (secret guess : Int) :
    check_guess secret guess = "correct" ↔ guess = secret := by
  unfold check_guess
  rcases lt_trichotomy guess secret with h | h | h
  · simp [not_lt.mpr h.le, h, h.ne]
  · simp [h]
  · simp [h, h.ne']

theorem check_guess_cases (secret guess : Int) :
    check_guess secret guess = "too_high" ∨ check_guess secret guess = "too_low" ∨
      check_guess secret guess = "correct" := by
  unfold check_guess
  rcases lt_trichotomy guess secret with h | h | h
  · simp [not_lt.mpr h.le, h]
  · simp [h]
  · simp [h]

theorem apply_guess_over (st : ServerState) (gid : String) (game : Game) (guess : Int)
    (h : game.is_over = true) :
    apply_guess_to_game st gid game guess =
      .ok ({ result := "game_over"
             attempts_left := game.max_attempts - game.attempts_used
             correct_number := some game.secret_number }, st) := by
  simp [apply_guess_to_game, h]

theorem apply_guess_invalid (st : ServerState) (gid : String) (game : Game) (guess : Int)
    (hover : game.is_over = false) (hr : guess < 1 ∨ guess > game.number_range) :
    apply_guess_to_game st gid game guess =
      .error (.invalidGuess game.number_range, st) := by
  simp [apply_guess_to_game, hover, hr]

theorem apply_guess_win (st : ServerState) (gid : String) (game : Game) (guess : Int)
    (hover : game.is_over = false) (h1 : 1 ≤ guess) (h2 : guess ≤ game.number_range)
    (hs : guess = game.secret_number) :
    apply_guess_to_game st gid game guess =
      .ok ({ result := "win"
             attempts_left := game.max_attempts - (game.attempts_used + 1)
             correct_number := some game.secret_number },
           record_result
             { st with games := dictSet st.games gid ({ game with attempts_used := game.attempts_used + 1, is_over := true }) }
             game.player_name "win") := by
  have hno : ¬ (guess < 1 ∨ guess > game.number_range) := by omega
  have hb : check_guess game.secret_number guess = "correct" :=
    (check_guess_correct_iff _ _).mpr hs
  simp [apply_guess_to_game, hover, hno, hb]

theorem apply_guess_lose (st : ServerState) (gid : String) (game : Game) (guess : Int)
    (hover : game.is_over = false) (h1 : 1 ≤ guess) (h2 : guess ≤ game.number_range)
    (hs : guess ≠ game.secret_number)
    (hM : game.max_attempts - (game.attempts_used + 1) ≤ 0) :
    apply_guess_to_game st gid game guess =
      .ok ({ result := "lose"
             attempts_left := 0
             correct_number := some game.secret_number },
           record_result
             { st with games := dictSet st.games gid ({ game with attempts_used := game.attempts_used + 1, is_over := true }) }
             game.player_name "lose") := by
  have hno : ¬ (guess < 1 ∨ guess > game.number_range) := by omega
  have hb : ¬ check_guess game.secret_number guess = "correct" := by
    rw [check_guess_correct_iff]; exact hs
  simp [apply_guess_to_game, hover, hno, hb, hM]

theorem apply_guess_cont (st : ServerState) (gid : String) (game : Game) (guess : Int)
    (hover : game.is_over = false) (h1 : 1 ≤ guess) (h2 : guess ≤ game.number_range)
    (hs : guess ≠ game.secret_number)
    (hM : 0 < game.max_attempts - (game.attempts_used + 1)) :
    apply_guess_to_game st gid game guess =
      .ok ({ result := check_guess game.secret_number guess
             attempts_left := game.max_attempts - (game.attempts_used + 1)
             correct_number := none },
           { st with games := dictSet st.games gid ({ game with attempts_used := game.attempts_used + 1 }) }) := by
  have hno : ¬ (guess < 1 ∨ guess > game.number_range) := by omega
  have hb : ¬ check_guess game.secret_number guess = "correct" := by
    rw [check_guess_correct_iff]; exact hs
  have hM' : ¬ game.max_attempts - (game.attempts_used + 1) ≤ 0 := by omega
  simp [apply_guess_to_game, hover, hno, hb, hM']

theorem check_guess_endpoint_some (st : ServerState) (gid : String) (game : Game) (guess : Int)
    (h : dictGet st.games gid = some game) :
    check_guess_endpoint st gid guess = apply_guess_to_game st gid game guess := by
  simp [check_guess_endpoint, h]

theorem check_guess_endpoint_none (st : ServerState) (gid : String) (guess : Int)
    (h : dictGet st.games gid = none) :
    check_guess_endpoint st gid guess = .error (.gameNotFound, st) := by
  simp [check_guess_endpoint, h]

theorem dictGet_record_ne (st : ServerState) (p q r : String) (h : q ≠ p) :
    dictGet (record_result st p r).stats q = dictGet st.stats q := by
  unfold record_result
  by_cases hw : r = "win"
  · simp [hw, dictGet_addWin_ne _ _ _ h, dictGet_ensure_ne _ _ _ h]
  · by_cases hl : r = "lose"
    · simp [hw, hl, dictGet_addLoss_ne _ _ _ h, dictGet_ensure_ne _ _ _ h]
    · simp [hw, hl, dictGet_ensure_ne _ _ _ h]

theorem apply_guess_shape (st : ServerState) (gid : String) (game : Game) (guess : Int) :
    (game.is_over = true ∧ apply_guess_to_game st gid game guess =
      .ok ({ result := "game_over", attempts_left := game.max_attempts - game.attempts_used, correct_number := some game.secret_number }, st)) ∨
    (game.is_over = false ∧ (guess < 1 ∨ guess > game.number_range) ∧
      apply_guess_to_game st gid game guess = .error (.invalidGuess game.number_range, st)) ∨
    (game.is_over = false ∧ 1 ≤ guess ∧ guess ≤ game.number_range ∧
      guess = game.secret_number ∧ apply_guess_to_game st gid game guess =
      .ok ({ result := "win", attempts_left := game.max_attempts - (game.attempts_used + 1), correct_number := some game.secret_number },
        record_result { st with games := dictSet st.games gid ({ game with attempts_used := game.attempts_used + 1, is_over := true }) } game.player_name "win")) ∨
    (game.is_over = false ∧ 1 ≤ guess ∧ guess ≤ game.number_range ∧
      guess ≠ game.secret_number ∧ game.max_attempts - (game.attempts_used + 1) ≤ 0 ∧
      apply_guess_to_game st gid game guess =
      .ok ({ result := "lose", attempts_left := 0, correct_number := some game.secret_number },
        record_result { st with games := dictSet st.games gid ({ game with attempts_used := game.attempts_used + 1, is_over := true }) } game.player_name "lose")) ∨
    (game.is_over = false ∧ 1 ≤ guess ∧ guess ≤ game.number_range ∧
      guess ≠ game.secret_number ∧ 0 < game.max_attempts - (game.attempts_used + 1) ∧
      apply_guess_to_game st gid game guess =
      .ok ({ result := check_guess game.secret_number guess, attempts_left := game.max_attempts - (game.attempts_used + 1), correct_number := none },
        { st with games := dictSet st.games gid ({ game with attempts_used := game.attempts_used + 1 }) }) ∧
      (check_guess game.secret_number guess = "too_high" ∨
        check_guess game.secret_number guess = "too_low")) := by
  by_cases hover : game.is_over = true
  · exact Or.inl ⟨hover, apply_guess_over st gid game guess hover⟩
  have hover' : game.is_over = false := by
    cases h : game.is_over
    · rfl
    · exact absurd h hover
  by_cases hr : guess < 1 ∨ guess > game.number_range
  · exact Or.inr (Or.inl ⟨hover', hr, apply_guess_invalid st gid game guess hover' hr⟩)
  have h1 : 1 ≤ guess := by omega
  have h2 : guess ≤ game.number_range := by omega
  by_cases hs : guess = game.secret_number
  · exact Or.inr (Or.inr (Or.inl ⟨hover', h1, h2, hs,
      apply_guess_win st gid game guess hover' h1 h2 hs⟩))
  by_cases hM : game.max_attempts - (game.attempts_used + 1) ≤ 0
  · exact Or.inr (Or.inr (Or.inr (Or.inl ⟨hover', h1, h2, hs, hM,
      apply_guess_lose st gid game guess hover' h1 h2 hs hM⟩)))
  have hM' : 0 < game.max_attempts - (game.attempts_used + 1) := by omega
  refine Or.inr (Or.inr (Or.inr (Or.inr ⟨hover', h1, h2, hs, hM',
    apply_guess_cont st gid game guess hover' h1 h2 hs hM', ?_⟩)))
  rcases check_guess_cases game.secret_number guess with h | h | h
  · exact Or.inl h
  · exact Or.inr h
  · exact absurd ((check_guess_correct_iff _ _).mp h) hs

/- ==================== the claims ==================== -/

/-- C2: `choose_difficulty_from_number` maps 1 ↦ (10, 5), 2 ↦ (20, 4),
3 ↦ (50, 3), and `create_game` stores a fresh game with exactly those
parameters; any other difficulty fails with `InvalidDifficulty` and
leaves the state (hence the registry) untouched. -/
theorem C2_difficulty_table (st : ServerState) (p : String) (s : Int) (gid : String) (d : Int) :
    (choose_difficulty_from_number 1 = .ok (10, 5) ∧
     choose_difficulty_from_number 2 = .ok (20, 4) ∧
     choose_difficulty_from_number 3 = .ok (50, 3)) ∧
    (∃ st1, create_game st 1 p s gid =
        .ok ({ game_id := gid, number_range := 10, max_attempts := 5 }, st1) ∧
      dictGet st1.games gid = some ⟨s, 10, 5, 0, false, p⟩) ∧
    (∃ st2, create_game st 2 p s gid =
        .ok ({ game_id := gid, number_range := 20, max_attempts := 4 }, st2) ∧
      dictGet st2.games gid = some ⟨s, 20, 4, 0, false, p⟩) ∧
    (∃ st3, create_game st 3 p s gid =
        .ok ({ game_id := gid, number_range := 50, max_attempts := 3 }, st3) ∧
      dictGet st3.games gid = some ⟨s, 50, 3, 0, false, p⟩) ∧
    (d ≠ 1 → d ≠ 2 → d ≠ 3 →
      choose_difficulty_from_number d = .error .invalidDifficulty ∧
      create_game st d p s gid = .error (.invalidDifficulty, st)) := by
  refine ⟨⟨rfl, rfl, rfl⟩, ⟨_, rfl, ?_⟩, ⟨_, rfl, ?_⟩, ⟨_, rfl, ?_⟩, ?_⟩
  · exact dictGet_dictSet_self st.games gid _
  · exact dictGet_dictSet_self st.games gid _
  · exact dictGet_dictSet_self st.games gid _
  · intro h1 h2 h3
    have hd : choose_difficulty_from_number d = .error .invalidDifficulty := by
      simp [choose_difficulty_from_number, h1, h2, h3]
    exact ⟨hd, by simp [create_game, hd]⟩

/-- C2 witness: difficulty 4 is rejected on the empty server. -/
theorem C2_difficulty_table_witness :
    choose_difficulty_from_number 4 = .error .invalidDifficulty ∧
    create_game emptyState 4 "bob" 3 "g" = .error (.invalidDifficulty, emptyState) :=
  (C2_difficulty_table emptyState "bob" 3 "g" 4).2.2.2.2
    (by decide) (by decide) (by decide)

/-- C3: a guess against a finished game answers `game_over` with
`attempts_left = max_attempts - attempts_used` and the true secret, and
returns the state unchanged, so stats are untouched and any replay of the
call produces the very same response. -/
theorem C3_game_over_idempotent (st : ServerState) (gid : String) (game : Game) (guess : Int)
    (hg : dictGet st.games gid = some game) (hover : game.is_over = true) :
    check_guess_endpoint st gid guess =
      .ok ({ result := "game_over"
             attempts_left := game.max_attempts - game.attempts_used
             correct_number := some game.secret_number }, st) := by
  rw [check_guess_endpoint_some st gid game guess hg,
    apply_guess_over st gid game guess hover]

/-- C3 witness: replaying a guess on the finished sample game. -/
theorem C3_game_over_idempotent_witness :
    check_guess_endpoint sampleOverState "g" 4 =
      .ok ({ result := "game_over", attempts_left := 2, correct_number := some 7 },
        sampleOverState) :=
  C3_game_over_idempotent sampleOverState "g" sampleOverGame 4 (by decide) (by decide)

/-- C4: on a live game an out-of-range guess raises `InvalidGuess` and the
state at the raise point is exactly the input state: no field of the game
(in particular `attempts_used`) has changed, because the range check
precedes the increment. -/
theorem C4_invalid_guess_unchanged (st : ServerState) (gid : String) (game : Game) (guess : Int)
    (hg : dictGet st.games gid = some game) (hover : game.is_over = false)
    (hr : guess < 1 ∨ guess > game.number_range) :
    check_guess_endpoint st gid guess = .error (.invalidGuess game.number_range, st) := by
  rw [check_guess_endpoint_some st gid game guess hg,
    apply_guess_invalid st gid game guess hover hr]

/-- C4 witness: guess 11 on the fresh range-10 sample game. -/
theorem C4_invalid_guess_unchanged_witness :
    check_guess_endpoint sampleState "g" 11 = .error (.invalidGuess 10, sampleState) :=
  C4_invalid_guess_unchanged sampleState "g" sampleGame 11 (by decide) (by decide)
    (by decide)

/-- C5 counterexample: game "g" exists and guess 0 is out of range, yet
the request is answered 200 `game_over` (no error is raised at all),
because the already-over check precedes range validation. -/
theorem C5_cex :
    dictGet sampleOverState.games "g" = some sampleOverGame ∧
    sampleOverGame.is_over = true ∧
    (0 : Int) < 1 ∧
    check_guess_endpoint sampleOverState "g" 0 =
      .ok ({ result := "game_over", attempts_left := 2, correct_number := some 7 },
        sampleOverState) ∧
    isClientError (check_guess_endpoint sampleOverState "g" 0) = false :=
  ⟨rfl, rfl, by decide, rfl, rfl⟩

/-- C5 as amended: an out-of-range guess against an existing game is
answered 400 `InvalidGuess` when the game is not yet over; when the game
is already over the same request is instead answered 200 `game_over`
(the over-check runs before range validation). -/
theorem C5_amended (st : ServerState) (gid : String) (game : Game) (guess : Int)
    (hg : dictGet st.games gid = some game)
    (hr : guess < 1 ∨ guess > game.number_range) :
    (game.is_over = false →
      check_guess_endpoint st gid guess = .error (.invalidGuess game.number_range, st)) ∧
    (game.is_over = true →
      check_guess_endpoint st gid guess =
        .ok ({ result := "game_over"
               attempts_left := game.max_attempts - game.attempts_used
               correct_number := some game.secret_number }, st)) := by
  constructor
  · intro hover
    rw [check_guess_endpoint_some st gid game guess hg,
      apply_guess_invalid st gid game guess hover hr]
  · intro hover
    rw [check_guess_endpoint_some st gid game guess hg,
      apply_guess_over st gid game guess hover]

/-- C5 witness: guess 0 on the live sample game is a 400. -/
theorem C5_amended_witness :
    check_guess_endpoint sampleState "g" 0 = .error (.invalidGuess 10, sampleState) :=
  (C5_amended sampleState "g" sampleGame 0 (by decide) (by decide)).1 (by decide)

theorem runGuesses_miss (gs : List Int) :
    ∀ (st : ServerState) (game : Game) (gid : String),
      dictGet st.games gid = some game →
      game.is_over = false →
      gs ≠ [] →
      (∀ g ∈ gs, 1 ≤ g ∧ g ≤ game.number_range ∧ g ≠ game.secret_number) →
      game.attempts_used + (gs.length : Int) ≤ game.max_attempts →
      ∃ resp st' game',
        runGuesses st gid gs = .ok (some resp, st') ∧
        dictGet st'.games gid = some game' ∧
        game'.attempts_used = game.attempts_used + (gs.length : Int) ∧
        game'.secret_number = game.secret_number ∧
        game'.number_range = game.number_range ∧
        game'.max_attempts = game.max_attempts ∧
        game'.player_name = game.player_name ∧
        resp.attempts_left = game.max_attempts - (game.attempts_used + (gs.length : Int)) ∧
        (game'.is_over = true ↔ game.attempts_used + (gs.length : Int) = game.max_attempts) ∧
        (resp.result = "lose" ↔ game.attempts_used + (gs.length : Int) = game.max_attempts) ∧
        (game.attempts_used + (gs.length : Int) = game.max_attempts →
          resp.correct_number = some game.secret_number ∧ resp.attempts_left = 0) ∧
        (game.attempts_used + (gs.length : Int) < game.max_attempts →
          (resp.result = "too_high" ∨ resp.result = "too_low") ∧
          resp.correct_number = none) := by
  induction gs with
  | nil =>
    intro st game gid _ _ hne _ _
    exact absurd rfl hne
  | cons g rest ih =>
    intro st game gid hg hover _ hmem hlen
    obtain ⟨hg1, hg2, hg3⟩ := hmem g (List.mem_cons_self g rest)
    simp only [List.length_cons] at hlen
    push_cast at hlen
    by_cases hrest : rest = []
    case pos =>
      subst hrest
      by_cases hM : game.max_attempts - (game.attempts_used + 1) ≤ 0
      · -- the single guess exhausts the budget: forced lose
        have heq := apply_guess_lose st gid game g hover hg1 hg2 hg3 hM
        refine ⟨{ result := "lose", attempts_left := 0, correct_number := some game.secret_number },
          record_result { st with games := dictSet st.games gid ({ game with attempts_used := game.attempts_used + 1, is_over := true }) } game.player_name "lose",
          { game with attempts_used := game.attempts_used + 1, is_over := true },
          ?_, ?_, ?_, rfl, rfl, rfl, rfl, ?_, ?_, ?_, ?_, ?_⟩
        · simp only [runGuesses, check_guess_endpoint_some st gid game g hg, heq,
            Option.getD_none]
        · rw [record_result_games]
          exact dictGet_dictSet_self st.games gid _
        · dsimp only
          simp only [List.length_cons, List.length_nil]
          push_cast
          ring
        · dsimp only
          simp only [List.length_cons, List.length_nil]
          push_cast
          omega
        · dsimp only
          simp only [List.length_cons, List.length_nil]
          push_cast
          constructor
          · intro _
            omega
          · intro _
            trivial
        · dsimp only
          simp only [List.length_cons, List.length_nil]
          push_cast
          constructor
          · intro _
            omega
          · intro _
            trivial
        · intro _
          exact ⟨rfl, rfl⟩
        · intro hlt
          simp only [List.length_cons, List.length_nil] at hlt
          push_cast at hlt
          omega
      · -- budget remains: too_high / too_low
        have hM' : 0 < game.max_attempts - (game.attempts_used + 1) := by omega
        have heq := apply_guess_cont st gid game g hover hg1 hg2 hg3 hM'
        have hcase :
            check_guess game.secret_number g = "too_high" ∨
            check_guess game.secret_number g = "too_low" := by
          rcases check_guess_cases game.secret_number g with h | h | h
          · exact Or.inl h
          · exact Or.inr h
          · exact absurd ((check_guess_correct_iff _ _).mp h) hg3
        have hnl : check_guess game.secret_number g ≠ "lose" := by
          rcases hcase with h | h <;> rw [h] <;> decide
        refine ⟨{ result := check_guess game.secret_number g
                  attempts_left := game.max_attempts - (game.attempts_used + 1)
                  correct_number := none },
          { st with games := dictSet st.games gid ({ game with attempts_used := game.attempts_used + 1 }) },
          { game with attempts_used := game.attempts_used + 1 },
          ?_, dictGet_dictSet_self st.games gid _, ?_, rfl, rfl, rfl, rfl, ?_, ?_, ?_, ?_, ?_⟩
        · simp only [runGuesses, check_guess_endpoint_some st gid game g hg, heq,
            Option.getD_none]
        · dsimp only
          simp only [List.length_cons, List.length_nil]
          push_cast
          ring
        · dsimp only
          simp only [List.length_cons, List.length_nil]
          push_cast
          ring_nf
        · dsimp only
          simp only [List.length_cons, List.length_nil]
          push_cast
          constructor
          · intro h
            rw [hover] at h
            exact Bool.noConfusion h
          · intro h
            exact absurd h (by omega)
        · dsimp only
          simp only [List.length_cons, List.length_nil]
          push_cast
          constructor
          · intro h
            exact absurd h hnl
          · intro h
            exact absurd h (by omega)
        · intro heqM
          simp only [List.length_cons, List.length_nil] at heqM
          push_cast at heqM
          exact absurd heqM (by omega)
        · intro _
          exact ⟨hcase, rfl⟩
    case neg =>
      -- more guesses follow, so this one cannot exhaust the budget
      have hne2 : rest ≠ [] := hrest
      have hlenpos : 1 ≤ (rest.length : Int) := by
        have hp : 0 < rest.length := List.length_pos.mpr hne2
        omega
      have hM' : 0 < game.max_attempts - (game.attempts_used + 1) := by omega
      have heq := apply_guess_cont st gid game g hover hg1 hg2 hg3 hM'
      obtain ⟨resp, st', game', hrun, hget, hused, hsec, hrange, hmax, hname,
          hleft, hiff1, hiff2, hterm, hlive⟩ :=
        ih { st with games := dictSet st.games gid ({ game with attempts_used := game.attempts_used + 1 }) }
          { game with attempts_used := game.attempts_used + 1 } gid
          (dictGet_dictSet_self st.games gid _) hover hne2
          (fun g' hm => hmem g' (List.mem_cons_of_mem g hm))
          (by dsimp only; omega)
      refine ⟨resp, st', game', ?_, hget, ?_, hsec, hrange, hmax, hname, ?_, ?_, ?_, ?_, ?_⟩
      · simp only [runGuesses, check_guess_endpoint_some st gid game g hg, heq, hrun,
          Option.getD_some]
      · rw [hused]
        dsimp only
        simp only [List.length_cons]
        push_cast
        ring
      · rw [hleft]
        dsimp only
        simp only [List.length_cons]
        push_cast
        ring_nf
      · rw [hiff1]
        dsimp only
        simp only [List.length_cons]
        push_cast
        constructor <;> intro h <;> omega
      · rw [hiff2]
        dsimp only
        simp only [List.length_cons]
        push_cast
        constructor <;> intro h <;> omega
      · intro h
        simp only [List.length_cons] at h
        push_cast at h
        refine hterm ?_
        dsimp only
        omega
      · intro h
        simp only [List.length_cons] at h
        push_cast at h
        refine hlive ?_
        dsimp only
        omega

/-- C1: on a fresh game, after `k` in-range guesses that all miss the
secret, `attempts_used = k` and the reported `attempts_left` is
`max_attempts - k`; the run ends in `lose` (with `attempts_left = 0` and
the secret revealed) exactly when `k` reaches `max_attempts`, stays in
`too_high`/`too_low` (secret hidden) while `k < max_attempts`, and a
single guess on a live game yields `win` exactly when it equals the
secret. -/
theorem C1_attempts_accounting :
    (∀ (st : ServerState) (gid : String) (game : Game) (gs : List Int),
      dictGet st.games gid = some game →
      game.is_over = false →
      game.attempts_used = 0 →
      gs ≠ [] →
      (∀ g ∈ gs, 1 ≤ g ∧ g ≤ game.number_range ∧ g ≠ game.secret_number) →
      (gs.length : Int) ≤ game.max_attempts →
      ∃ resp st' game',
        runGuesses st gid gs = .ok (some resp, st') ∧
        dictGet st'.games gid = some game' ∧
        game'.attempts_used = (gs.length : Int) ∧
        resp.attempts_left = game.max_attempts - (gs.length : Int) ∧
        (resp.result = "lose" ↔ (gs.length : Int) = game.max_attempts) ∧
        (game'.is_over = true ↔ (gs.length : Int) = game.max_attempts) ∧
        ((gs.length : Int) = game.max_attempts →
          resp.correct_number = some game.secret_number ∧ resp.attempts_left = 0) ∧
        ((gs.length : Int) < game.max_attempts →
          (resp.result = "too_high" ∨ resp.result = "too_low") ∧
          resp.correct_number = none)) ∧
    (∀ (st : ServerState) (gid : String) (game : Game) (guess : Int)
        (resp : GuessResponse) (st' : ServerState),
      dictGet st.games gid = some game →
      game.is_over = false →
      1 ≤ guess → guess ≤ game.number_range →
      check_guess_endpoint st gid guess = .ok (resp, st') →
      (resp.result = "win" ↔ guess = game.secret_number)) := by
  constructor
  · intro st gid game gs hg hover hzero hne hmem hlen
    obtain ⟨resp, st', game', hrun, hget, hused, hsec, hrange, hmax, hname,
        hleft, hiff1, hiff2, hterm, hlive⟩ :=
      runGuesses_miss gs st game gid hg hover hne hmem (by omega)
    rw [hzero] at hused hleft hiff1 hiff2 hterm hlive
    simp only [zero_add] at hused hleft hiff1 hiff2 hterm hlive
    exact ⟨resp, st', game', hrun, hget, hused, hleft, hiff2, hiff1,
      fun h => hterm h, fun h => hlive h⟩
  · intro st gid game guess resp st' hg hover h1 h2 h
    rw [check_guess_endpoint_some st gid game guess hg] at h
    rcases apply_guess_shape st gid game guess with
      ⟨ho, heq⟩ | ⟨ho, hr, heq⟩ | ⟨ho, hh1, hh2, hs, heq⟩ |
      ⟨ho, hh1, hh2, hs, hM, heq⟩ | ⟨ho, hh1, hh2, hs, hM, heq, hcase⟩
    · rw [ho] at hover
      exact absurd hover (by simp)
    · exact absurd hr (by omega)
    · rw [heq] at h
      simp only [Except.ok.injEq, Prod.mk.injEq] at h
      obtain ⟨hresp, -⟩ := h
      subst hresp
      constructor
      · intro _
        exact hs
      · intro _
        rfl
    · rw [heq] at h
      simp only [Except.ok.injEq, Prod.mk.injEq] at h
      obtain ⟨hresp, -⟩ := h
      subst hresp
      constructor
      · intro hx
        exact absurd hx (by simp)
      · intro hx
        exact absurd hx hs
    · rw [heq] at h
      simp only [Except.ok.injEq, Prod.mk.injEq] at h
      obtain ⟨hresp, -⟩ := h
      subst hresp
      constructor
      · intro hx
        dsimp only at hx
        rcases hcase with hc | hc <;> rw [hc] at hx <;> exact absurd hx (by decide)
      · intro hx
        exact absurd hx hs

/-- C1 witness: five in-range misses on the fresh sample game (secret 7,
range 10, 5 attempts) end in a forced loss with the secret revealed. -/
theorem C1_attempts_accounting_witness :
    ∃ resp st' game',
      runGuesses sampleState "g" [10, 1, 2, 3, 4] = .ok (some resp, st') ∧
      dictGet st'.games "g" = some game' ∧
      game'.attempts_used = (([10, 1, 2, 3, 4] : List Int).length : Int) ∧
      resp.attempts_left =
        sampleGame.max_attempts - (([10, 1, 2, 3, 4] : List Int).length : Int) ∧
      (resp.result = "lose" ↔
        ((([10, 1, 2, 3, 4] : List Int).length : Int) = sampleGame.max_attempts)) ∧
      (game'.is_over = true ↔
        ((([10, 1, 2, 3, 4] : List Int).length : Int) = sampleGame.max_attempts)) ∧
      ((([10, 1, 2, 3, 4] : List Int).length : Int) = sampleGame.max_attempts →
        resp.correct_number = some sampleGame.secret_number ∧ resp.attempts_left = 0) ∧
      ((([10, 1, 2, 3, 4] : List Int).length : Int) < sampleGame.max_attempts →
        (resp.result = "too_high" ∨ resp.result = "too_low") ∧
        resp.correct_number = none) :=
  C1_attempts_accounting.1 sampleState "g" sampleGame [10, 1, 2, 3, 4]
    rfl rfl rfl (by decide) (by decide) (by decide)

theorem getWins_congr (s s' : Stats) (q : String) (h : dictGet s q = dictGet s' q) :
    getWins s q = getWins s' q := by
  unfold getWins
  rw [h]

theorem getLosses_congr (s s' : Stats) (q : String) (h : dictGet s q = dictGet s' q) :
    getLosses s q = getLosses s' q := by
  unfold getLosses
  rw [h]

theorem record_result_mono (st : ServerState) (p r q : String) :
    getWins st.stats q ≤ getWins (record_result st p r).stats q ∧
    getLosses st.stats q ≤ getLosses (record_result st p r).stats q := by
  by_cases hq : q = p
  · subst hq
    by_cases hw : r = "win"
    · subst hw
      rw [getWins_record_win, getLosses_record_win]
      exact ⟨Nat.le_succ _, le_refl _⟩
    · by_cases hl : r = "lose"
      · subst hl
        rw [getWins_record_lose, getLosses_record_lose]
        exact ⟨le_refl _, Nat.le_succ _⟩
      · have hst : (record_result st q r).stats = ensure_player_stats st.stats q := by
          simp [record_result, hw, hl]
        rw [hst, getWins_ensure, getLosses_ensure]
        exact ⟨le_refl _, le_refl _⟩
  · have hd := dictGet_record_ne st p q r hq
    rw [getWins_congr _ _ _ hd, getLosses_congr _ _ _ hd]
    exact ⟨le_refl _, le_refl _⟩

/-- C6: recording a win (resp. loss) bumps exactly the named player's
wins (resp. losses) by one, leaves every other record untouched, and the
whole ledger is saved to `scores.txt` right after; and no operation of
the service — recording, guess checking, or game creation, succeeding or
failing — ever decreases any player's wins or losses. -/
theorem C6_stats_monotone (st : ServerState) (p : String) (gid : String) (guess : Int)
    (d : Int) (pn : String) (s : Int) (gid2 : String) (r : String) :
    (getWins (record_result st p "win").stats p = getWins st.stats p + 1 ∧
     getLosses (record_result st p "win").stats p = getLosses st.stats p ∧
     (∀ q, q ≠ p → dictGet (record_result st p "win").stats q = dictGet st.stats q) ∧
     (record_result st p "win").file = save_stats (record_result st p "win").stats) ∧
    (getLosses (record_result st p "lose").stats p = getLosses st.stats p + 1 ∧
     getWins (record_result st p "lose").stats p = getWins st.stats p ∧
     (∀ q, q ≠ p → dictGet (record_result st p "lose").stats q = dictGet st.stats q) ∧
     (record_result st p "lose").file = save_stats (record_result st p "lose").stats) ∧
    (∀ q, getWins st.stats q ≤ getWins (record_result st p r).stats q ∧
      getLosses st.stats q ≤ getLosses (record_result st p r).stats q) ∧
    (∀ resp st', check_guess_endpoint st gid guess = .ok (resp, st') →
      ∀ q, getWins st.stats q ≤ getWins st'.stats q ∧
        getLosses st.stats q ≤ getLosses st'.stats q) ∧
    (∀ e st', check_guess_endpoint st gid guess = .error (e, st') →
      ∀ q, getWins st.stats q ≤ getWins st'.stats q ∧
        getLosses st.stats q ≤ getLosses st'.stats q) ∧
    (∀ resp2 st', create_game st d pn s gid2 = .ok (resp2, st') →
      ∀ q, getWins st.stats q ≤ getWins st'.stats q ∧
        getLosses st.stats q ≤ getLosses st'.stats q) ∧
    (∀ e st', create_game st d pn s gid2 = .error (e, st') →
      ∀ q, getWins st.stats q ≤ getWins st'.stats q ∧
        getLosses st.stats q ≤ getLosses st'.stats q) := by
  refine ⟨⟨getWins_record_win st p, getLosses_record_win st p,
      fun q hq => dictGet_record_ne st p q _ hq, rfl⟩,
    ⟨getLosses_record_lose st p, getWins_record_lose st p,
      fun q hq => dictGet_record_ne st p q _ hq, rfl⟩,
    fun q => record_result_mono st p r q, ?_, ?_, ?_, ?_⟩
  · intro resp st' h q
    cases hg : dictGet st.games gid with
    | none =>
      rw [check_guess_endpoint_none st gid guess hg] at h
      simp at h
    | some game =>
      rw [check_guess_endpoint_some st gid game guess hg] at h
      rcases apply_guess_shape st gid game guess with
        ⟨hover, heq⟩ | ⟨hover, hr, heq⟩ | ⟨hover, h1, h2, hs, heq⟩ |
        ⟨hover, h1, h2, hs, hM, heq⟩ | ⟨hover, h1, h2, hs, hM, heq, hcase⟩
      · rw [heq] at h
        simp only [Except.ok.injEq, Prod.mk.injEq] at h
        obtain ⟨-, hst⟩ := h
        subst hst
        exact ⟨le_refl _, le_refl _⟩
      · rw [heq] at h
        simp at h
      · rw [heq] at h
        simp only [Except.ok.injEq, Prod.mk.injEq] at h
        obtain ⟨-, hst⟩ := h
        subst hst
        exact record_result_mono _ game.player_name "win" q
      · rw [heq] at h
        simp only [Except.ok.injEq, Prod.mk.injEq] at h
        obtain ⟨-, hst⟩ := h
        subst hst
        exact record_result_mono _ game.player_name "lose" q
      · rw [heq] at h
        simp only [Except.ok.injEq, Prod.mk.injEq] at h
        obtain ⟨-, hst⟩ := h
        subst hst
        exact ⟨le_refl _, le_refl _⟩
  · intro e st' h q
    cases hg : dictGet st.games gid with
    | none =>
      rw [check_guess_endpoint_none st gid guess hg] at h
      simp only [Except.error.injEq, Prod.mk.injEq] at h
      rw [← h.2]
      exact ⟨le_refl _, le_refl _⟩
    | some game =>
      rw [check_guess_endpoint_some st gid game guess hg] at h
      rcases apply_guess_shape st gid game guess with
        ⟨hover, heq⟩ | ⟨hover, hr, heq⟩ | ⟨hover, h1, h2, hs, heq⟩ |
        ⟨hover, h1, h2, hs, hM, heq⟩ | ⟨hover, h1, h2, hs, hM, heq, hcase⟩
      · rw [heq] at h; simp at h
      · rw [heq] at h
        simp only [Except.error.injEq, Prod.mk.injEq] at h
        rw [← h.2]
        exact ⟨le_refl _, le_refl _⟩
      · rw [heq] at h; simp at h
      · rw [heq] at h; simp at h
      · rw [heq] at h; simp at h
  · intro resp2 st' h q
    cases hd : choose_difficulty_from_number d with
    | error e => simp [create_game, hd] at h
    | ok pair =>
      simp only [create_game, hd] at h
      obtain ⟨-, rfl⟩ := h
      constructor
      · show getWins st.stats q ≤ getWins (ensure_player_stats st.stats pn) q
        rw [getWins_ensure st.stats pn q]
      · show getLosses st.stats q ≤ getLosses (ensure_player_stats st.stats pn) q
        rw [getLosses_ensure st.stats pn q]
  · intro e st' h q
    cases hd : choose_difficulty_from_number d with
    | error e2 =>
      simp only [create_game, hd] at h
      obtain ⟨-, rfl⟩ := h
      exact ⟨le_refl _, le_refl _⟩
    | ok pair => simp [create_game, hd] at h

/-- C6 witness: recording a win for "bob" on the empty ledger makes his
wins 1, losses 0, and writes the ledger out. -/
theorem C6_stats_monotone_witness :
    getWins (record_result emptyState "bob" "win").stats "bob" =
      getWins emptyState.stats "bob" + 1 ∧
    getLosses (record_result emptyState "bob" "win").stats "bob" =
      getLosses emptyState.stats "bob" ∧
    (record_result emptyState "bob" "win").file =
      save_stats (record_result emptyState "bob" "win").stats :=
  ⟨((C6_stats_monotone emptyState "bob" "g" 1 1 "al" 3 "h" "win").1).1,
   ((C6_stats_monotone emptyState "bob" "g" 1 1 "al" 3 "h" "win").1).2.1,
   ((C6_stats_monotone emptyState "bob" "g" 1 1 "al" 3 "h" "win").1).2.2.2⟩

/-- C7 counterexample: the name " a" contains no `;`, yet saving the
ledger `[(" a", 1, 2)]` and loading it back yields the entry under "a" —
`load_stats` strips each line, so the leading space is lost and the
stated assumption (no `;` in names) is not enough for a round trip. -/
theorem C7_cex :
    (';' ∉ (" a" : String).data) ∧
    load_stats (some (save_stats [(" a", ⟨1, 2⟩)])) = some [("a", ⟨1, 2⟩)] ∧
    load_stats (some (save_stats [(" a", ⟨1, 2⟩)])) ≠ some [(" a", ⟨1, 2⟩)] := by
  refine ⟨by decide, by decide, by decide⟩

/-- C7 as amended: saving a ledger and loading it back reproduces every
player's wins and losses exactly, provided names are pairwise distinct
and each name not only avoids the `;` delimiter but also contains no
line break (`\n`, `\r`) and carries no leading or trailing whitespace
(which `strip()` would remove). -/
theorem C7_roundtrip_amended (L : Stats)
    (hnodup : (L.map Prod.fst).Nodup)
    (hgood : ∀ e ∈ L, goodName e.1 = true) :
    load_stats (some (save_stats L)) = some L := by
  show loadLines [] (splitOnCh '\n' (univNewlines (save_stats L))) = some L
  rw [univNewlines_id _ (save_no_cr L hgood), save_split L hgood,
    loadLines_append L [] hgood hnodup (fun e _ => rfl)]
  simp

/-- C7 witness: a two-player ledger survives the round trip. -/
theorem C7_roundtrip_amended_witness :
    load_stats (some (save_stats [("bob", ⟨2, 3⟩), ("al", ⟨0, 1⟩)])) =
      some [("bob", ⟨2, 3⟩), ("al", ⟨0, 1⟩)] :=
  C7_roundtrip_amended [("bob", ⟨2, 3⟩), ("al", ⟨0, 1⟩)] (by decide) (by decide)

/-- C8 counterexample: a stats query for a name the server has never seen
does not create a zeroed record; it fails with `PlayerNotFound` (the
endpoint returns 404 and mutates nothing). -/
theorem C8_cex :
    dictGet ([] : Stats) "alice" = none ∧
    get_player_stats_data [] "alice" = .error .playerNotFound :=
  ⟨rfl, rfl⟩

/-- C8 as amended: a zeroed `PlayerStats` record is created lazily on
first game-start (an existing record is left alone), while a stats query
for an absent name creates nothing and fails with `PlayerNotFound`. -/
theorem C8_amended (st : ServerState) (d : Int) (p : String) (s : Int) (gid : String)
    (stats : Stats) :
    (∀ r st', dictGet st.stats p = none → create_game st d p s gid = .ok (r, st') →
      dictGet st'.stats p = some ⟨0, 0⟩) ∧
    (∀ r st' rec, dictGet st.stats p = some rec → create_game st d p s gid = .ok (r, st') →
      st'.stats = st.stats) ∧
    (dictGet stats p = none → get_player_stats_data stats p = .error .playerNotFound) := by
  refine ⟨?_, ?_, ?_⟩
  · intro r st' hnone hok
    cases hd : choose_difficulty_from_number d with
    | error e => simp [create_game, hd] at hok
    | ok pair =>
      simp only [create_game, hd] at hok
      obtain ⟨-, rfl⟩ := hok
      simp only [ensure_player_stats, hnone, Option.isSome_none, Bool.false_eq_true,
        if_false]
      exact dictGet_dictSet_self st.stats p _
  · intro r st' rec hsome hok
    cases hd : choose_difficulty_from_number d with
    | error e => simp [create_game, hd] at hok
    | ok pair =>
      simp only [create_game, hd] at hok
      obtain ⟨-, rfl⟩ := hok
      simp [ensure_player_stats, hsome]
  · intro hnone
    simp [get_player_stats_data, hnone]

/-- C9: for every successful `POST /check-guess` response, the secret is
revealed exactly in the terminal results `win`, `lose` and `game_over`;
while the game stays live (`too_high`/`too_low`) the response carries no
`correct_number`. -/
theorem C9_secret_hidden (st : ServerState) (gid : String) (guess : Int)
    (resp : GuessResponse) (st' : ServerState)
    (h : check_guess_endpoint st gid guess = .ok (resp, st')) :
    ∃ game, dictGet st.games gid = some game ∧
      ((resp.result = "too_high" ∨ resp.result = "too_low") → resp.correct_number = none) ∧
      ((resp.result = "win" ∨ resp.result = "lose" ∨ resp.result = "game_over") →
        resp.correct_number = some game.secret_number) ∧
      (resp.result = "too_high" ∨ resp.result = "too_low" ∨ resp.result = "win" ∨
        resp.result = "lose" ∨ resp.result = "game_over") := by
  cases hg : dictGet st.games gid with
  | none =>
    rw [check_guess_endpoint_none st gid guess hg] at h
    simp at h
  | some game =>
    refine ⟨game, rfl, ?_⟩
    rw [check_guess_endpoint_some st gid game guess hg] at h
    rcases apply_guess_shape st gid game guess with
      ⟨hover, heq⟩ | ⟨hover, hr, heq⟩ | ⟨hover, h1, h2, hs, heq⟩ |
      ⟨hover, h1, h2, hs, hM, heq⟩ | ⟨hover, h1, h2, hs, hM, heq, hcase⟩
    · rw [heq] at h
      simp only [Except.ok.injEq, Prod.mk.injEq] at h
      obtain ⟨hresp, -⟩ := h
      subst hresp
      refine ⟨?_, ?_, ?_⟩
      · rintro (hx | hx) <;> simp at hx
      · intro _; rfl
      · right; right; right; right; rfl
    · rw [heq] at h
      simp at h
    · rw [heq] at h
      simp only [Except.ok.injEq, Prod.mk.injEq] at h
      obtain ⟨hresp, -⟩ := h
      subst hresp
      refine ⟨?_, ?_, ?_⟩
      · rintro (hx | hx) <;> simp at hx
      · intro _; rfl
      · right; right; left; rfl
    · rw [heq] at h
      simp only [Except.ok.injEq, Prod.mk.injEq] at h
      obtain ⟨hresp, -⟩ := h
      subst hresp
      refine ⟨?_, ?_, ?_⟩
      · rintro (hx | hx) <;> simp at hx
      · intro _; rfl
      · right; right; right; left; rfl
    · rw [heq] at h
      simp only [Except.ok.injEq, Prod.mk.injEq] at h
      obtain ⟨hresp, -⟩ := h
      subst hresp
      refine ⟨?_, ?_, ?_⟩
      · intro _; rfl
      · rcases hcase with hc | hc <;> rw [hc] <;>
          rintro (hx | hx | hx) <;> simp at hx
      · rcases hcase with hc | hc
        · left; exact hc
        · right; left; exact hc

/-- C9 witness: the first miss on the fresh sample game hides the
secret. -/
theorem C9_secret_hidden_witness :
    ∃ game, dictGet sampleState.games "g" = some game ∧
      ((({ result := "too_high", attempts_left := 4, correct_number := none } : GuessResponse).result = "too_high" ∨
        ({ result := "too_high", attempts_left := 4, correct_number := none } : GuessResponse).result = "too_low") →
        ({ result := "too_high", attempts_left := 4, correct_number := none } : GuessResponse).correct_number = none) ∧
      ((({ result := "too_high", attempts_left := 4, correct_number := none } : GuessResponse).result = "win" ∨
        ({ result := "too_high", attempts_left := 4, correct_number := none } : GuessResponse).result = "lose" ∨
        ({ result := "too_high", attempts_left := 4, correct_number := none } : GuessResponse).result = "game_over") →
        ({ result := "too_high", attempts_left := 4, correct_number := none } : GuessResponse).correct_number = some game.secret_number) ∧
      (({ result := "too_high", attempts_left := 4, correct_number := none } : GuessResponse).result = "too_high" ∨
       ({ result := "too_high", attempts_left := 4, correct_number := none } : GuessResponse).result = "too_low" ∨
       ({ result := "too_high", attempts_left := 4, correct_number := none } : GuessResponse).result = "win" ∨
       ({ result := "too_high", attempts_left := 4, correct_number := none } : GuessResponse).result = "lose" ∨
       ({ result := "too_high", attempts_left := 4, correct_number := none } : GuessResponse).result = "game_over") :=
  C9_secret_hidden sampleState "g" 10
    { result := "too_high", attempts_left := 4, correct_number := none }
    { sampleState with games := dictSet sampleState.games "g" ({ sampleGame with attempts_used := 1 }) }
    rfl

/-- C10: a guess routed to game `gid` touches nothing but that game's
`attempts_used`/`is_over` fields and (on `win`/`lose`) the owner's stats
record: every other registry entry and every other player's record is
preserved, and on a non-terminal or replayed result the stats dict is
exactly unchanged; a failed request leaves the whole state unchanged. -/
theorem C10_frame (st : ServerState) (gid : String) (guess : Int) :
    (∀ resp st', check_guess_endpoint st gid guess = .ok (resp, st') →
      ∃ game, dictGet st.games gid = some game ∧
        (∀ gid2, gid2 ≠ gid → dictGet st'.games gid2 = dictGet st.games gid2) ∧
        (∃ game2, dictGet st'.games gid = some game2 ∧
          game2.secret_number = game.secret_number ∧
          game2.number_range = game.number_range ∧
          game2.max_attempts = game.max_attempts ∧
          game2.player_name = game.player_name) ∧
        (∀ q, q ≠ game.player_name → dictGet st'.stats q = dictGet st.stats q) ∧
        (resp.result ≠ "win" → resp.result ≠ "lose" → st'.stats = st.stats)) ∧
    (∀ e st2, check_guess_endpoint st gid guess = .error (e, st2) → st2 = st) := by
  constructor
  · intro resp st' h
    cases hg : dictGet st.games gid with
    | none =>
      rw [check_guess_endpoint_none st gid guess hg] at h
      simp at h
    | some game =>
      refine ⟨game, rfl, ?_⟩
      rw [check_guess_endpoint_some st gid game guess hg] at h
      rcases apply_guess_shape st gid game guess with
        ⟨hover, heq⟩ | ⟨hover, hr, heq⟩ | ⟨hover, h1, h2, hs, heq⟩ |
        ⟨hover, h1, h2, hs, hM, heq⟩ | ⟨hover, h1, h2, hs, hM, heq, hcase⟩
      · rw [heq] at h
        simp only [Except.ok.injEq, Prod.mk.injEq] at h
        obtain ⟨hresp, hst⟩ := h
        subst hresp
        subst hst
        exact ⟨fun _ _ => rfl, ⟨game, hg, rfl, rfl, rfl, rfl⟩, fun _ _ => rfl,
          fun _ _ => rfl⟩
      · rw [heq] at h
        simp at h
      · rw [heq] at h
        simp only [Except.ok.injEq, Prod.mk.injEq] at h
        obtain ⟨hresp, hst⟩ := h
        subst hresp
        subst hst
        refine ⟨?_, ?_, ?_, ?_⟩
        · intro gid2 hne
          rw [record_result_games]
          exact dictGet_dictSet_ne st.games gid gid2 _ hne
        · refine ⟨{ game with attempts_used := game.attempts_used + 1, is_over := true }, ?_, rfl, rfl, rfl, rfl⟩
          rw [record_result_games]
          exact dictGet_dictSet_self st.games gid _
        · intro q hq
          exact dictGet_record_ne _ _ _ _ hq
        · intro hw _
          exact absurd rfl hw
      · rw [heq] at h
        simp only [Except.ok.injEq, Prod.mk.injEq] at h
        obtain ⟨hresp, hst⟩ := h
        subst hresp
        subst hst
        refine ⟨?_, ?_, ?_, ?_⟩
        · intro gid2 hne
          rw [record_result_games]
          exact dictGet_dictSet_ne st.games gid gid2 _ hne
        · refine ⟨{ game with attempts_used := game.attempts_used + 1, is_over := true }, ?_, rfl, rfl, rfl, rfl⟩
          rw [record_result_games]
          exact dictGet_dictSet_self st.games gid _
        · intro q hq
          exact dictGet_record_ne _ _ _ _ hq
        · intro _ hl
          exact absurd rfl hl
      · rw [heq] at h
        simp only [Except.ok.injEq, Prod.mk.injEq] at h
        obtain ⟨hresp, hst⟩ := h
        subst hresp
        subst hst
        refine ⟨?_, ?_, fun _ _ => rfl, fun _ _ => rfl⟩
        · intro gid2 hne
          exact dictGet_dictSet_ne st.games gid gid2 _ hne
        · exact ⟨{ game with attempts_used := game.attempts_used + 1 }, dictGet_dictSet_self st.games gid _, rfl, rfl, rfl, rfl⟩
  · intro e st2 h
    cases hg : dictGet st.games gid with
    | none =>
      rw [check_guess_endpoint_none st gid guess hg] at h
      simp only [Except.error.injEq, Prod.mk.injEq] at h
      exact h.2.symm
    | some game =>
      rw [check_guess_endpoint_some st gid game guess hg] at h
      rcases apply_guess_shape st gid game guess with
        ⟨hover, heq⟩ | ⟨hover, hr, heq⟩ | ⟨hover, h1, h2, hs, heq⟩ |
        ⟨hover, h1, h2, hs, hM, heq⟩ | ⟨hover, h1, h2, hs, hM, heq, hcase⟩
      · rw [heq] at h; simp at h
      · rw [heq] at h
        simp only [Except.error.injEq, Prod.mk.injEq] at h
        exact h.2.symm
      · rw [heq] at h; simp at h
      · rw [heq] at h; simp at h
      · rw [heq] at h; simp at h

/-- C10 witness: the winning guess on the sample game preserves other
registry entries and other players' stats. -/
theorem C10_frame_witness :
    ∃ game, dictGet sampleState.games "g" = some game ∧
      (∀ gid2, gid2 ≠ "g" →
        dictGet (record_result { sampleState with games := dictSet sampleState.games "g" ({ sampleGame with attempts_used := 1, is_over := true }) } "bob" "win").games gid2 =
          dictGet sampleState.games gid2) ∧
      (∃ game2, dictGet (record_result { sampleState with games := dictSet sampleState.games "g" ({ sampleGame with attempts_used := 1, is_over := true }) } "bob" "win").games "g" = some game2 ∧
        game2.secret_number = game.secret_number ∧
        game2.number_range = game.number_range ∧
        game2.max_attempts = game.max_attempts ∧
        game2.player_name = game.player_name) ∧
      (∀ q, q ≠ game.player_name →
        dictGet (record_result { sampleState with games := dictSet sampleState.games "g" ({ sampleGame with attempts_used := 1, is_over := true }) } "bob" "win").stats q =
          dictGet sampleState.stats q) ∧
      (({ result := "win", attempts_left := 4, correct_number := some 7 } : GuessResponse).result ≠ "win" →
       ({ result := "win", attempts_left := 4, correct_number := some 7 } : GuessResponse).result ≠ "lose" →
        (record_result { sampleState with games := dictSet sampleState.games "g" ({ sampleGame with attempts_used := 1, is_over := true }) } "bob" "win").stats = sampleState.stats) :=
  (C10_frame sampleState "g" 7).1
    { result := "win", attempts_left := 4, correct_number := some 7 }
    (record_result { sampleState with games := dictSet sampleState.games "g" ({ sampleGame with attempts_used := 1, is_over := true }) } "bob" "win")
    (by rfl)

/-- C8 witness: starting a difficulty-1 game for the unseen player "bob"
creates the zeroed record, and querying the unseen player "alice"
fails. -/
theorem C8_amended_witness :
    dictGet (emptyState.stats) "bob" = none ∧
    (∃ r st', create_game emptyState 1 "bob" 3 "g" = .ok (r, st') ∧
      dictGet st'.stats "bob" = some ⟨0, 0⟩) ∧
    get_player_stats_data [] "alice" = .error .playerNotFound := by
  refine ⟨rfl, ⟨{ game_id := "g", number_range := 10, max_attempts := 5 }, _, rfl, ?_⟩, ?_⟩
  · exact (C8_amended emptyState 1 "bob" 3 "g" []).1 _ _ rfl rfl
  · exact (C8_amended emptyState 1 "bob" 3 "g" []).2.2 rfl

end GuessNumber
